import Mathlib

/-!
Verification of the voltctl kvstore / component-config core
(`internal/pkg/commands/kvstore.go` and the embedded `config` package).

The development shallowly embeds the Go code: Go strings are Lean `String`s,
the external etcd store is an explicit association list threaded through the
CRUD operations, goroutine channel loops become recursive functions over the
finite list of events received before the inbound channel closes, and Go
runtime panics and returned errors are distinguished by the `GoResult` type.
-/

namespace Voltha

/-! ## Go string primitives

Each definition mirrors the corresponding function of Go's `strings`
package as used by the source, operating on the underlying character
lists of Lean strings. -/

/-- Go `strings.HasPrefix s p`. -/
def goHasPrefix (s p : String) : Bool :=
  p.data.isPrefixOf s.data

/-- Go `strings.TrimPrefix s p`: drops `p` from the front of `s` when `s`
starts with `p`, and returns `s` unchanged otherwise. -/
def goTrimPrefix (s p : String) : String :=
  if goHasPrefix s p then ⟨s.data.drop p.data.length⟩ else s

/-- Go `strings.Trim s cutset` specialised to a one-character cutset, as in
the source's `strings.Trim(..., "\"")`: removes ALL leading and trailing
occurrences of the character (not just one layer). -/
def goTrimChar (s : String) (c : Char) : String :=
  ⟨((s.data.dropWhile (· == c)).reverse.dropWhile (· == c)).reverse⟩

/-- Index of the first occurrence of `sep` in `s` (Go `strings.Index`),
`none` when `sep` does not occur in `s`. -/
def findSub (sep : List Char) : List Char → Option Nat
  | [] => if sep.isEmpty then some 0 else none
  | c :: rest =>
    if sep.isPrefixOf (c :: rest) then some 0
    else (findSub sep rest).map (· + 1)

/-- Go `strings.Contains s sub`. -/
def goContains (s sub : String) : Bool :=
  (findSub sub.data s.data).isSome

/-- Go `strings.SplitN s sep 2`: splits at the first occurrence of `sep`,
returning `[s]` when `sep` does not occur. -/
def goSplitN2 (s sep : String) : List String :=
  match findSub sep.data s.data with
  | none => [s]
  | some i => [⟨s.data.take i⟩, ⟨s.data.drop (i + sep.data.length)⟩]

/-- Go `strings.SplitAfterN s sep 2`: like `goSplitN2` but the first part
keeps the separator. -/
def goSplitAfterN2 (s sep : String) : List String :=
  match findSub sep.data s.data with
  | none => [s]
  | some i => [⟨s.data.take (i + sep.data.length)⟩, ⟨s.data.drop (i + sep.data.length)⟩]

/-- Worker for `goSplit`; the fuel argument (always at least the length of
the remaining input plus one) only serves the termination argument, since
every step with a non-empty separator strictly shortens the input. -/
def goSplitAux (sep : List Char) : Nat → List Char → List (List Char)
  | 0, s => [s]
  | fuel + 1, s =>
    match findSub sep s with
    | none => [s]
    | some i => s.take i :: goSplitAux sep fuel (s.drop (i + sep.length))

/-- Go `strings.Split s sep` for a non-empty separator: splits at every
occurrence of `sep`. -/
def goSplit (s sep : String) : List String :=
  (goSplitAux sep.data (s.data.length + 1) s.data).map (fun l => ⟨l⟩)

/-- Concatenation of the chunks interleaved with `sep` (Go `strings.Join`). -/
def joinChars (sep : List Char) : List (List Char) → List Char
  | [] => []
  | [x] => x
  | x :: y :: xs => x ++ sep ++ joinChars sep (y :: xs)

/-- Go `strings.ReplaceAll s old new` for a non-empty `old`, via the
characterisation `Join(Split(s, old), new)` from the Go documentation. -/
def goReplaceAll (s old new : String) : String :=
  ⟨joinChars new.data (goSplitAux old.data (s.data.length + 1) s.data)⟩

/-! ## Go results

Distinguishes a normal return, an error return (`return nil, err`) and a
Go runtime panic (such as an out-of-range slice index). -/

/-- Outcome of a Go computation: normal value, returned error, or runtime
panic. -/
inductive GoResult (α : Type) where
  | ok (val : α)
  | err (msg : String)
  | panicked
deriving Repr, DecidableEq

/-- Sequencing of Go computations: errors and panics propagate. -/
def GoResult.bind {α β : Type} : GoResult α → (α → GoResult β) → GoResult β
  | .ok a, f => f a
  | .err m, _ => .err m
  | .panicked, _ => .panicked

instance : Monad GoResult where
  pure := GoResult.ok
  bind := GoResult.bind

/-- Whether a Go computation finished with a returned error value. -/
def GoResult.isErr {α : Type} : GoResult α → Bool
  | .err _ => true
  | _ => false

/-- Go slice indexing `l[i]`: panics when `i` is out of range. -/
def goIndex {α : Type} (l : List α) (i : Nat) : GoResult α :=
  match l.get? i with
  | some a => .ok a
  | none => .panicked

/-! ## Go maps

Go's `map[string]string` is embedded as an association list; Go maps are
unordered, so all map-level statements below are phrased through `mapGet`. -/

/-- Association-list embedding of `map[string]string`. -/
abbrev StrMap := List (String × String)

/-- Go map assignment `m[k] = v`. -/
def mapSet (m : StrMap) (k v : String) : StrMap :=
  (k, v) :: m.filter (fun p => p.1 != k)

/-- Go map lookup `m[k]` (with presence flag). -/
def mapGet (m : StrMap) (k : String) : Option String :=
  (m.find? (fun p => p.1 == k)).map (·.2)

/-! ## The external key-value store

Modelled from the spec: the `db.Backend` façade of voltha-lib-go is an
external collaborator (spec section 6).  `put` stores one key verbatim,
`listByPrefix` returns every stored full key with the given prefix, and the
backend prepends its own path prefix plus one separator to every key it is
handed (visible in the source's own prefix computations in `RetrieveAll`).
The store itself is an explicit association list from full keys to values. -/

/-- State of the external key-value store: full key to stored value. -/
abbrev Store := List (String × String)

/-- `db.Backend`: connection parameters plus the path prefix glued onto
every key (the `kvClient` itself is external I/O state and has no
representation beyond `Store`). -/
structure Backend where
  storeType : String
  host : String
  port : Int
  timeout : Int
  pathPrefix : String
deriving Repr, DecidableEq

/-- Modelled from the spec: the backend joins its path prefix and the
caller's key with a single separator. -/
def Backend.makePath (b : Backend) (key : String) : String :=
  b.pathPrefix ++ "/" ++ key

/-- Modelled from the spec: `backend.Put` writes exactly one full key. -/
def Backend.Put (b : Backend) (st : Store) (key value : String) : Store :=
  mapSet st (b.makePath key) value

/-- Modelled from the spec: `backend.List` returns every stored entry whose
full key extends the prefixed key. -/
def Backend.List (b : Backend) (st : Store) (key : String) : Store :=
  st.filter (fun kv => goHasPrefix kv.1 (b.makePath key))

/-! ## The config package data model

Embeds the `config` package of the source (constants, `ConfigType`,
`ChangeEventType`, `ConfigChangeEvent`, `ConfigManager`, `ComponentConfig`). -/

/-- Source constant `defaultkvStoreConfigPath = "config"`. -/
def defaultkvStoreConfigPath : String := "config"

/-- Source constant `kvStoreDataPathPrefix = "/service/voltha"`. -/
def kvStoreDataPathPrefix : String := "/service/voltha"

/-- Source constant `kvStorePathSeparator = "/"`. -/
def kvStorePathSeparator : String := "/"

/-- `ConfigType` is a Go `int` with two named constants; this inductive
covers exactly the named constants the repository ever constructs
(`ConfigTypeLogLevel = 0`, `ConfigTypeKafka = 1`).  The raw integer-indexed
string lookup of the source's `String()` method is embedded separately as
`configTypeStringGo`. -/
inductive ConfigType where
  | ConfigTypeLogLevel
  | ConfigTypeKafka
deriving Repr, DecidableEq

/-- The Go ordinal of each named `ConfigType` constant. -/
def ConfigType.ordinal : ConfigType → Int
  | .ConfigTypeLogLevel => 0
  | .ConfigTypeKafka => 1

/-- The string table `[...]string{"loglevel", "kafka"}` of the source's
`ConfigType.String()`. -/
def configTypeStringTable : List String := ["loglevel", "kafka"]

/-- Direct embedding of `func (c ConfigType) String() string`: indexes the
two-element string table by the raw integer value; any index outside the
table bounds is a Go out-of-range panic. -/
def configTypeStringGo (c : Int) : GoResult String :=
  if 0 ≤ c ∧ c < (configTypeStringTable.length : Int) then
    .ok (configTypeStringTable.getD c.toNat "")
  else .panicked

/-- `ConfigType.String()` restricted to the two named constants (the only
values the repository constructs); agrees with `configTypeStringGo` on
their ordinals. -/
def ConfigType.String : ConfigType → String
  | .ConfigTypeLogLevel => "loglevel"
  | .ConfigTypeKafka => "kafka"

/-- `ChangeEventType` with its two constants `Put = 0`, `Delete = 1`. -/
inductive ChangeEventType where
  | Put
  | Delete
deriving Repr, DecidableEq

/-- `ConfigChangeEvent`: the typed event produced by watch translation. -/
structure ConfigChangeEvent where
  ChangeType : ChangeEventType
  ConfigAttribute : String
deriving Repr, DecidableEq

/-- `kvstore.Event` event-type constants `PUT = 0`, `DELETE = 1`,
`CONNECTIONDOWN = 2`, `UNKNOWN = 3` of the external kvstore client. -/
inductive KVEventType where
  | PUT
  | DELETE
  | CONNECTIONDOWN
  | UNKNOWN
deriving Repr, DecidableEq

/-- `kvstore.Event`: a raw watch event from the backend. -/
structure KVEvent where
  EventType : KVEventType
  Key : String
  Value : String
deriving Repr, DecidableEq

/-- The Go conversion `ChangeEventType(watchResp.EventType)` on the values
that reach it: in `processKVStoreWatchEvents` only `PUT` (ordinal 0) and
`DELETE` (ordinal 1) survive the filter, and the numeric cast maps their
ordinals to `Put` and `Delete`.  The last two branches are unreachable
there (a Go cast of 2 or 3 would produce an out-of-range enum value, never
`Put`); they are given a junk value only to keep the function total. -/
def ChangeEventType.ofKVEventType : KVEventType → ChangeEventType
  | .PUT => .Put
  | .DELETE => .Delete
  | .CONNECTIONDOWN => .Put
  | .UNKNOWN => .Put

/-- `ConfigManager`: the backend plus the shared config prefix. -/
structure ConfigManager where
  backend : Backend
  KvStoreConfigPrefix : String
deriving Repr, DecidableEq

/-- `NewConfigManager(kvClient, kvStoreType, kvStoreHost, kvStorePort,
kvStoreTimeout)`: sets the config prefix to `"config"` and the backend path
prefix to `"/service/voltha"` (the client handle is external I/O state). -/
def NewConfigManager (kvStoreType kvStoreHost : String) (kvStorePort kvStoreTimeout : Int) :
    ConfigManager :=
  { KvStoreConfigPrefix := defaultkvStoreConfigPath,
    backend :=
      { storeType := kvStoreType,
        host := kvStoreHost,
        port := kvStorePort,
        timeout := kvStoreTimeout,
        pathPrefix := kvStoreDataPathPrefix } }

/-- `ComponentConfig`: one (component, config-type) handle.  The two
channel fields of the source are represented by the event-list semantics of
the watch functions below, not by struct fields. -/
structure ComponentConfig where
  cManager : ConfigManager
  componentLabel : String
  configType : ConfigType
deriving Repr, DecidableEq

/-- `ConfigManager.InitComponentConfig`. -/
def ConfigManager.InitComponentConfig (cm : ConfigManager) (componentLabel : String)
    (configType : ConfigType) : ComponentConfig :=
  { cManager := cm, componentLabel := componentLabel, configType := configType }

/-- `ComponentConfig.makeConfigPath`:
`KvStoreConfigPrefix + "/" + componentLabel + "/" + configType.String()`. -/
def ComponentConfig.makeConfigPath (c : ComponentConfig) : String :=
  c.cManager.KvStoreConfigPrefix ++ kvStorePathSeparator ++
    c.componentLabel ++ kvStorePathSeparator ++ c.configType.String

/-- `ComponentConfig.Save`: puts `makeConfigPath() + "/" + configKey` with
the given value (the backend then prepends its own path prefix). -/
def ComponentConfig.Save (c : ComponentConfig) (configKey configValue : String)
    (st : Store) : Store :=
  Backend.Put c.cManager.backend st (c.makeConfigPath ++ "/" ++ configKey) configValue

/-- The quote character trimmed from values by `RetrieveAll` and
`RetrieveList`. -/
def quoteChar : Char := '\"'

/-- `ComponentConfig.RetrieveAll`: lists the handle's subtree and, for each
entry, strips `PathPrefix + "/" + makeConfigPath() + "/"` from the key and
trims quote characters from the value.  The in-memory store model cannot
fail, so the error return of the source is always nil here. -/
def ComponentConfig.RetrieveAll (c : ComponentConfig) (st : Store) : StrMap :=
  let key := c.makeConfigPath
  let data := Backend.List c.cManager.backend st key
  let ccPathPrefix := c.cManager.backend.pathPrefix ++ kvStorePathSeparator ++
    key ++ kvStorePathSeparator
  data.foldl
    (fun res kv => mapSet res (goTrimPrefix kv.1 ccPathPrefix) (goTrimChar kv.2 quoteChar)) []

/-! ## Watch translation

`MonitorForConfigChange` subscribes to the handle's subtree and starts the
goroutine `processKVStoreWatchEvents`, which ranges over the inbound raw
event channel until it closes.  The goroutine is embedded as a function
over the finite list of events received before the inbound channel closed;
its outbound channel writes (and the absence of any close of that channel)
are recorded as an explicit action trace. -/

/-- The prefix `processKVStoreWatchEvents` strips from raw keys, exactly as
computed on line 906 of the source:
`c.cManager.backend.PathPrefix + ccKeyPrefix + kvStorePathSeparator`
(note: no separator between the backend path prefix and the config path). -/
def ComponentConfig.watchPathPrefix (c : ComponentConfig) : String :=
  c.cManager.backend.pathPrefix ++ c.makeConfigPath ++ kvStorePathSeparator

/-- The body of the `for watchResp := range c.kvStoreEventChan` loop of
`processKVStoreWatchEvents`, applied to the finite list of events the
inbound channel delivers before closing: `CONNECTIONDOWN` and `UNKNOWN`
events are skipped (`continue`); for the rest, one `ConfigChangeEvent` is
sent on the outbound channel, with the change type cast from the raw event
type and the attribute obtained by `strings.TrimPrefix` of the raw key
against `watchPathPrefix`. -/
def ComponentConfig.processKVStoreWatchEvents (c : ComponentConfig) :
    List KVEvent → List ConfigChangeEvent
  | [] => []
  | e :: rest =>
    if e.EventType == .CONNECTIONDOWN || e.EventType == .UNKNOWN then
      c.processKVStoreWatchEvents rest
    else
      { ChangeType := ChangeEventType.ofKVEventType e.EventType,
        ConfigAttribute := goTrimPrefix e.Key c.watchPathPrefix } ::
        c.processKVStoreWatchEvents rest

/-- Observable channel actions of the watch translation goroutine. -/
inductive WatchAction where
  | emit (e : ConfigChangeEvent)
  | closeOut
deriving Repr, DecidableEq

/-- The complete action trace of the `processKVStoreWatchEvents` goroutine
on a finite inbound stream: one `emit` per forwarded event, and then the
function simply returns — the source contains no `close` of
`changeEventChan`, so no `closeOut` action is ever produced. -/
def ComponentConfig.watchTaskTrace (c : ComponentConfig) :
    List KVEvent → List WatchAction
  | [] => []
  | e :: rest =>
    if e.EventType == .CONNECTIONDOWN || e.EventType == .UNKNOWN then
      c.watchTaskTrace rest
    else
      WatchAction.emit
        { ChangeType := ChangeEventType.ofKVEventType e.EventType,
          ConfigAttribute := goTrimPrefix e.Key c.watchPathPrefix } ::
        c.watchTaskTrace rest

/-! ## RetrieveList and its inverse key parse -/

/-- `config.List`: one denormalized row of the cross-component listing
(named `ListEntry` here because `List` is taken by the Lean prelude). -/
structure ListEntry where
  ComponentName : String
  PackageName : String
  Level : String
deriving Repr, DecidableEq

/-- The per-key body of the `RetrieveList` loop:
`cName := strings.SplitN(attr, "/"+configType+"/", 2)`,
`cname := strings.SplitN(cName[0], "/"+configPrefix+"/", 2)`,
`ComponentName = cname[1]`,
`pName := strings.SplitAfterN(attr, "/"+configType+"/", 2)`,
`PackageName = pName[1]`, `Level = strings.Trim(value, "\"")`.
Go's out-of-range slice indexing is a runtime panic, rendered as
`GoResult.panicked` by `goIndex`. -/
def ComponentConfig.parseListKey (c : ComponentConfig) (attr val : String) :
    GoResult ListEntry :=
  let ccPathPrefix := kvStorePathSeparator ++ c.configType.String ++ kvStorePathSeparator
  let pathPrefix := kvStorePathSeparator ++ c.cManager.KvStoreConfigPrefix ++ kvStorePathSeparator
  match goIndex (goSplitN2 attr ccPathPrefix) 0 with
  | .ok cn0 =>
    match goIndex (goSplitN2 cn0 pathPrefix) 1 with
    | .ok componentName =>
      match goIndex (goSplitAfterN2 attr ccPathPrefix) 1 with
      | .ok packageName =>
        .ok { ComponentName := componentName, PackageName := packageName,
              Level := goTrimChar val quoteChar }
      | _ => .panicked
    | _ => .panicked
  | _ => .panicked

/-- Sequences the per-key parses of `RetrieveList`; the first error or
panic aborts the loop, as in Go. -/
def goMapEntries {α : Type} (f : String → String → GoResult α) :
    Store → GoResult (List α)
  | [] => .ok []
  | kv :: rest => do
    let a ← f kv.1 kv.2
    let as ← goMapEntries f rest
    pure (a :: as)

/-- `ComponentConfig.RetrieveList`: lists every key under the shared config
prefix (all components) and parses each with `parseListKey`. -/
def ComponentConfig.RetrieveList (c : ComponentConfig) (st : Store) :
    GoResult (List ListEntry) :=
  goMapEntries c.parseListKey
    (Backend.List c.cManager.backend st c.cManager.KvStoreConfigPrefix)

/-! ## The component log controller (commands package)

The controller methods `listGlobalConfig` and `listComponentNameConfig`
of the second commands variant (source lines 514-545), with the handles
passed explicitly. -/

/-- `componentLogController.listGlobalConfig`: retrieves the `"global"`
handle's map and takes the value at key `"default"` (empty string when
absent), via the source's range-and-compare loop. -/
def listGlobalConfig (globalConfig : ComponentConfig) (st : Store) : String :=
  let globalLogConfig := globalConfig.RetrieveAll st
  globalLogConfig.foldl (fun acc kv => if kv.1 == "default" then kv.2 else acc) ""

/-- `componentLogController.listComponentNameConfig`: retrieves the
component handle's map and, when the global default level is non-empty,
assigns it into the map at key `"default"`. -/
def listComponentNameConfig (globalConfig componentNameConfig : ComponentConfig)
    (st : Store) : StrMap :=
  let globalLevel := listGlobalConfig globalConfig st
  let componentLogConfig := componentNameConfig.RetrieveAll st
  if globalLevel != "" then mapSet componentLogConfig "default" globalLevel
  else componentLogConfig

/-! ## CLI argument processing (commands package, first variant) -/

/-- `model.LogLevel` of the voltctl model package: the row populated by the
loglevel commands (fields as used by `processCommandArgs` and
`PopulateFrom`). -/
structure LogLevel where
  ComponentName : String
  PackageName : String
  Level : String
deriving Repr, DecidableEq

/-- Source constant `defaultComponentName = "global"`. -/
def defaultComponentName : String := "global"

/-- Source constant `defaultPackageName = "default"`. -/
def defaultPackageName : String := "default"

/-- `processCommandArgs` (source lines 182-195): when the argument contains
`#`, the part before the first `#` is the component name and the part after
it, with every `/` replaced by `#`, is the package name; otherwise the
whole argument is the component name with package `"default"`.  (When the
argument contains `#`, `strings.Split` returns at least two parts, so the
Go indexes `val[0]` and `val[1]` cannot panic; the `getD` defaults are
unreachable.) -/
def processCommandArgs (component : String) : LogLevel :=
  if goContains component "#" then
    let val := goSplit component "#"
    { ComponentName := val.getD 0 "",
      PackageName := goReplaceAll (val.getD 1 "") "/" "#",
      Level := "" }
  else
    { ComponentName := component, PackageName := defaultPackageName, Level := "" }

/-- The package-name decoding applied on listing
(`strings.ReplaceAll(packageName, "#", "/")`, source line 312). -/
def displayPackageName (packageName : String) : String :=
  goReplaceAll packageName "#" "/"

/-! ## Concrete handles used by the concrete theorems -/

/-- A `ConfigManager` built with the default connection parameters of the
commands package (`etcd`, `127.0.0.1:2379`, timeout 5). -/
def cmDefault : ConfigManager := NewConfigManager "etcd" "127.0.0.1" 2379 5

/-- The loglevel handle for component `rw-core`. -/
def rwCoreLogHandle : ComponentConfig :=
  cmDefault.InitComponentConfig "rw-core" ConfigType.ConfigTypeLogLevel

/-- The loglevel handle for the distinguished `global` component. -/
def globalLogHandle : ComponentConfig :=
  cmDefault.InitComponentConfig "global" ConfigType.ConfigTypeLogLevel

/-! ## Helper lemmas -/

/-- A string starting with `p` passes the `goHasPrefix` test for `p`. -/
theorem goHasPrefix_append (p s : String) : goHasPrefix (p ++ s) p = true := by
  simp [goHasPrefix]

/-- Trimming a prefix off a string that carries it yields the remainder. -/
theorem goTrimPrefix_append (p s : String) : goTrimPrefix (p ++ s) p = s := by
  apply String.ext
  simp [goTrimPrefix, goHasPrefix_append, List.drop_left]

/-- `mapGet` after `mapSet` at the same key returns the assigned value. -/
theorem mapGet_mapSet_self (m : StrMap) (k v : String) :
    mapGet (mapSet m k v) k = some v := by
  simp [mapGet, mapSet, List.find?_cons_of_pos]

/-- `dropWhile` is the identity when the head fails the predicate. -/
theorem dropWhile_beq_of_head_ne {l : List Char} {c : Char}
    (h : l.head? ≠ some c) : l.dropWhile (· == c) = l := by
  cases l with
  | nil => rfl
  | cons a t =>
    have hne : (a == c) = false := by
      apply beq_eq_false_iff_ne.mpr
      intro hac
      exact h (by simp [hac])
    simp [List.dropWhile_cons, hne]

/-- Values whose first and last characters are not the quote character. -/
def noEdgeQuote (v : String) : Prop :=
  v.data.head? ≠ some quoteChar ∧ v.data.getLast? ≠ some quoteChar

instance (v : String) : Decidable (noEdgeQuote v) := by
  unfold noEdgeQuote
  infer_instance

/-- Quote trimming is the identity on values without edge quotes. -/
theorem goTrimChar_of_noEdgeQuote {v : String} (h : noEdgeQuote v) :
    goTrimChar v quoteChar = v := by
  obtain ⟨h1, h2⟩ := h
  apply String.ext
  show ((v.data.dropWhile (· == quoteChar)).reverse.dropWhile (· == quoteChar)).reverse = v.data
  rw [dropWhile_beq_of_head_ne h1]
  rw [dropWhile_beq_of_head_ne (by rw [List.head?_reverse]; exact h2)]
  exact List.reverse_reverse _

/-- Folding the four leading literal segments of every default stored key
into a single literal. -/
theorem volthaPrefixMerge (X : String) :
    "/service/voltha" ++ ("/" ++ ("config" ++ ("/" ++ X))) = "/service/voltha/config/" ++ X := by
  rw [← String.append_assoc, ← String.append_assoc, ← String.append_assoc]
  exact congrArg (fun s => s ++ X) (by decide)

/-- `RetrieveAll` immediately after `Save` on the same handle, starting
from the empty store: exactly one entry, keyed by the bare attribute, with
all edge quotes trimmed from the value. -/
theorem retrieveAll_save_aux (c : ComponentConfig) (attr v : String) :
    c.RetrieveAll (c.Save attr v []) = [(attr, goTrimChar v quoteChar)] := by
  have hkey : Backend.makePath c.cManager.backend (c.makeConfigPath ++ "/" ++ attr)
      = (c.cManager.backend.pathPrefix ++ kvStorePathSeparator ++ c.makeConfigPath ++
          kvStorePathSeparator) ++ attr := by
    simp only [Backend.makePath, kvStorePathSeparator, String.append_assoc]
  have hpfx : Backend.makePath c.cManager.backend (c.makeConfigPath ++ "/" ++ attr)
      = Backend.makePath c.cManager.backend c.makeConfigPath ++ ("/" ++ attr) := by
    simp only [Backend.makePath, String.append_assoc]
  simp only [ComponentConfig.RetrieveAll, ComponentConfig.Save, Backend.Put, Backend.List,
    mapSet, List.filter_nil, List.filter_cons]
  rw [hpfx, goHasPrefix_append]
  simp only [if_true, List.foldl_cons, List.foldl_nil, List.filter_nil]
  rw [← hpfx, hkey, goTrimPrefix_append]

/-! ## Claim theorems -/

/-- C1: for every component label, config type and attribute name,
`Save(attributeName, value)` on a handle created from a default
`ConfigManager` writes exactly one key, namely
`<backend-path-prefix>/<configPrefix>/<componentLabel>/<configTypeString>/<attributeName>`,
where `configTypeString` is `"loglevel"` for `ConfigTypeLogLevel` and
`"kafka"` for `ConfigTypeKafka`, the default `configPrefix` is `"config"`,
and the default backend path prefix is `"/service/voltha"`. -/
theorem save_writes_exact_key (kvStoreType kvStoreHost : String)
    (kvStorePort kvStoreTimeout : Int)
    (componentLabel attributeName value : String) (configType : ConfigType) :
    ComponentConfig.Save
        ((NewConfigManager kvStoreType kvStoreHost kvStorePort kvStoreTimeout).InitComponentConfig
          componentLabel configType) attributeName value []
      = [("/service/voltha/config/" ++ componentLabel ++ "/" ++ configType.String ++ "/" ++
          attributeName, value)]
    ∧ ConfigType.ConfigTypeLogLevel.String = "loglevel"
    ∧ ConfigType.ConfigTypeKafka.String = "kafka"
    ∧ (NewConfigManager kvStoreType kvStoreHost kvStorePort kvStoreTimeout).KvStoreConfigPrefix
        = "config"
    ∧ (NewConfigManager kvStoreType kvStoreHost kvStorePort kvStoreTimeout).backend.pathPrefix
        = "/service/voltha" := by
  refine ⟨?_, rfl, rfl, rfl, rfl⟩
  simp only [ComponentConfig.Save, Backend.Put, Backend.makePath, ComponentConfig.makeConfigPath,
    ConfigManager.InitComponentConfig, NewConfigManager, mapSet, List.filter_nil,
    kvStorePathSeparator, defaultkvStoreConfigPath, kvStoreDataPathPrefix]
  simp only [String.append_assoc]
  rw [volthaPrefixMerge]

/-- C10: `ConfigType.String()` indexes the two-element string table by the
raw integer ordinal: it maps ordinal 0 (`ConfigTypeLogLevel`) to
`"loglevel"` and ordinal 1 (`ConfigTypeKafka`) to `"kafka"`, and for any
other integer value the lookup indexes out of range and panics instead of
returning a string or an error. -/
theorem configType_string_indexing (c : Int) (h0 : c ≠ 0) (h1 : c ≠ 1) :
    configTypeStringGo c = GoResult.panicked
    ∧ configTypeStringGo 0 = GoResult.ok "loglevel"
    ∧ configTypeStringGo 1 = GoResult.ok "kafka"
    ∧ configTypeStringGo ConfigType.ConfigTypeLogLevel.ordinal
        = GoResult.ok ConfigType.ConfigTypeLogLevel.String
    ∧ configTypeStringGo ConfigType.ConfigTypeKafka.ordinal
        = GoResult.ok ConfigType.ConfigTypeKafka.String := by
  refine ⟨?_, by decide, by decide, by decide, by decide⟩
  unfold configTypeStringGo
  rw [if_neg]
  rintro ⟨hle, hlt⟩
  simp only [configTypeStringTable, List.length_cons, List.length_nil] at hlt
  omega

/-- C10 witness: the out-of-range ordinal 2 panics. -/
theorem configType_string_indexing_witness :
    (2 : Int) ≠ 0 ∧ (2 : Int) ≠ 1 ∧ configTypeStringGo 2 = GoResult.panicked :=
  ⟨by decide, by decide, (configType_string_indexing 2 (by decide) (by decide)).1⟩

/-- The store behind the C2 scenario: a global default of INFO, then DEBUG
saved on rw-core's own default attribute. -/
def storeC2 : Store :=
  ComponentConfig.Save rwCoreLogHandle "default" "DEBUG"
    (ComponentConfig.Save globalLogHandle "default" "INFO" [])

/-- C2 counterexample: with a global default of INFO and DEBUG stored on
rw-core's own "default" attribute, listing rw-core's config reports INFO —
the global value overwrites the component-level one, refuting the claimed
fallback-only shadowing. -/
theorem component_default_shadowed_by_global :
    mapGet (listComponentNameConfig globalLogHandle rwCoreLogHandle storeC2) "default"
      = some "INFO"
    ∧ mapGet (rwCoreLogHandle.RetrieveAll storeC2) "default" = some "DEBUG"
    ∧ some ("INFO" : String) ≠ some "DEBUG" :=
  ⟨by decide, by decide, by decide⟩

/-- C2 amended: when listing one component's config, a non-empty global
default log level unconditionally overwrites the per-component entry at
the default attribute key: the global value shadows any component-level
value, not the other way around. -/
theorem global_default_overwrites_component
    (globalConfig componentNameConfig : ComponentConfig) (st : Store)
    (h : listGlobalConfig globalConfig st ≠ "") :
    mapGet (listComponentNameConfig globalConfig componentNameConfig st) "default"
      = some (listGlobalConfig globalConfig st) := by
  simp only [listComponentNameConfig]
  rw [if_pos (by simpa using h)]
  exact mapGet_mapSet_self _ _ _

/-- C2 witness: the amended overwrite rule at the C2 scenario store. -/
theorem global_default_overwrites_component_witness :
    listGlobalConfig globalLogHandle storeC2 ≠ ""
    ∧ mapGet (listComponentNameConfig globalLogHandle rwCoreLogHandle storeC2) "default"
        = some (listGlobalConfig globalLogHandle storeC2) :=
  ⟨by decide,
    global_default_overwrites_component globalLogHandle rwCoreLogHandle storeC2 (by decide)⟩

/-- C3: evaluating the watch translation at a key of the documented form
`<Backend Prefix Path>/<Config Prefix>/<Component Name>/<Config Type>/default`:
the prefix computed by the code lacks the separator between the backend
path prefix and the config path (`/service/volthaconfig/rw-core/loglevel/`),
so `TrimPrefix` matches nothing and the forwarded `ConfigAttribute` is the
whole raw key, not the bare attribute `default` promised by the claim and
by the source's own comment. -/
theorem watch_attribute_not_stripped :
    rwCoreLogHandle.watchPathPrefix = "/service/volthaconfig/rw-core/loglevel/"
    ∧ rwCoreLogHandle.processKVStoreWatchEvents
        [{ EventType := KVEventType.PUT,
           Key := "/service/voltha/config/rw-core/loglevel/default", Value := "\"DEBUG\"" }]
        = [{ ChangeType := ChangeEventType.Put,
             ConfigAttribute := "/service/voltha/config/rw-core/loglevel/default" }]
    ∧ ("/service/voltha/config/rw-core/loglevel/default" : String) ≠ "default" :=
  ⟨by decide, by decide, by decide⟩

/-- The watch task's action trace is exactly one `emit` per translated
event; the source loop contains no close of the outbound channel. -/
theorem watchTaskTrace_eq_map_emit (c : ComponentConfig) (events : List KVEvent) :
    c.watchTaskTrace events
      = (c.processKVStoreWatchEvents events).map WatchAction.emit := by
  induction events with
  | nil => rfl
  | cons e rest ih =>
    by_cases hb :
      (e.EventType == KVEventType.CONNECTIONDOWN || e.EventType == KVEventType.UNKNOWN) = true
    · simp [ComponentConfig.watchTaskTrace, ComponentConfig.processKVStoreWatchEvents, hb, ih]
    · simp [ComponentConfig.watchTaskTrace, ComponentConfig.processKVStoreWatchEvents, hb, ih]

/-- C4 counterexample: the inbound channel closes after delivering one Put
event; the task's complete action trace is a single emit and contains no
close of the outbound channel, refuting the claimed close-on-termination. -/
theorem watch_task_never_closes_counterexample :
    rwCoreLogHandle.watchTaskTrace [{ EventType := KVEventType.PUT, Key := "k", Value := "v" }]
      = [WatchAction.emit { ChangeType := ChangeEventType.Put, ConfigAttribute := "k" }]
    ∧ WatchAction.closeOut ∉
        rwCoreLogHandle.watchTaskTrace
          [{ EventType := KVEventType.PUT, Key := "k", Value := "v" }] :=
  ⟨by decide, by decide⟩

/-- C4 amended: when the inbound raw event channel closes, the translation
task terminates, having emitted exactly the translated events in order,
but it never closes the outbound `ConfigChangeEvent` channel — a consumer
ranging over that channel blocks forever instead of observing completion. -/
theorem watch_task_terminates_without_close (c : ComponentConfig) (events : List KVEvent) :
    c.watchTaskTrace events
      = (c.processKVStoreWatchEvents events).map WatchAction.emit
    ∧ WatchAction.closeOut ∉ c.watchTaskTrace events := by
  refine ⟨watchTaskTrace_eq_map_emit c events, ?_⟩
  rw [watchTaskTrace_eq_map_emit]
  simp [List.mem_map]

/-- C5 counterexample: saving the value `"DEBUG"` (with literal quote
characters) reads back as `DEBUG` — quote trimming removes every edge
quote, not exactly one layer, so the mapping does not contain
`attr -> v` for this value. -/
theorem retrieveAll_value_quote_trim_counterexample :
    mapGet (rwCoreLogHandle.RetrieveAll
        (rwCoreLogHandle.Save "default" "\"DEBUG\"" [])) "default" = some "DEBUG"
    ∧ some ("DEBUG" : String) ≠ some "\"DEBUG\"" :=
  ⟨by decide, by decide⟩

/-- C5 amended: for every handle, attribute name, and value whose first
and last characters are not the quote character, `RetrieveAll` after
`Save(attr, v)` on the same handle returns a mapping containing
`attr -> v`, the shared path prefix having been stripped from the stored
key to recover the bare attribute name; in general the value is read back
with ALL leading and trailing quote characters trimmed, not exactly one
layer. -/
theorem retrieveAll_after_save_roundtrip (c : ComponentConfig) (attr v : String)
    (h : noEdgeQuote v) :
    mapGet (c.RetrieveAll (c.Save attr v [])) attr = some v := by
  rw [retrieveAll_save_aux, goTrimChar_of_noEdgeQuote h]
  exact mapGet_mapSet_self [] attr v

/-- C5 witness: saving the literal `DEBUG` reads back `DEBUG`. -/
theorem retrieveAll_after_save_roundtrip_witness :
    noEdgeQuote "DEBUG"
    ∧ mapGet (rwCoreLogHandle.RetrieveAll
        (rwCoreLogHandle.Save "default" "DEBUG" [])) "default" = some "DEBUG" :=
  ⟨by decide, retrieveAll_after_save_roundtrip rwCoreLogHandle "default" "DEBUG" (by decide)⟩

/-- `goContains = false` means the separator has no occurrence at all. -/
theorem findSub_eq_none_of_not_contains {s sub : String}
    (h : goContains s sub = false) : findSub sub.data s.data = none := by
  unfold goContains at h
  cases hf : findSub sub.data s.data with
  | none => rfl
  | some i => rw [hf] at h; simp at h

/-- C6 amended: for every raw key containing no occurrence of the
`/configTypeString/` segment for the handle's config type, the inverse
path parse used by `RetrieveList` indexes a missing split component and
panics (a Go runtime crash), rather than returning a malformed-key error
to the caller. -/
theorem parseListKey_panics_without_segment (c : ComponentConfig) (key val : String)
    (h : goContains key
          (kvStorePathSeparator ++ c.configType.String ++ kvStorePathSeparator) = false) :
    c.parseListKey key val = GoResult.panicked := by
  have hf := findSub_eq_none_of_not_contains h
  simp only [ComponentConfig.parseListKey, goSplitN2, goSplitAfterN2, hf]
  split
  · split <;> rfl
  · rfl

/-- C6 witness: a kafka-subtree key seen by a loglevel handle contains no
`/loglevel/` segment and makes the parse panic. -/
theorem parseListKey_panics_without_segment_witness :
    goContains "/service/voltha/config/rw-core/kafka/default"
        (kvStorePathSeparator ++ rwCoreLogHandle.configType.String ++ kvStorePathSeparator)
      = false
    ∧ rwCoreLogHandle.parseListKey "/service/voltha/config/rw-core/kafka/default" "INFO"
        = GoResult.panicked :=
  ⟨by decide,
    parseListKey_panics_without_segment rwCoreLogHandle
      "/service/voltha/config/rw-core/kafka/default" "INFO" (by decide)⟩

/-- C6 counterexample: at a concrete segment-free key the parse (and the
whole `RetrieveList` over a store holding it) panics and returns no error
value, refuting the claimed malformed-key error return. -/
theorem retrieveList_panics_counterexample :
    rwCoreLogHandle.parseListKey "/service/voltha/config/rw-core/kafka/default" "INFO"
      = GoResult.panicked
    ∧ (rwCoreLogHandle.parseListKey
        "/service/voltha/config/rw-core/kafka/default" "INFO").isErr = false
    ∧ rwCoreLogHandle.RetrieveList
        [("/service/voltha/config/rw-core/kafka/default", "INFO")] = GoResult.panicked :=
  ⟨by decide, by decide, by decide⟩

/-- The watch translation distributes over concatenation of inbound
streams. -/
theorem processKVStoreWatchEvents_append (c : ComponentConfig) (xs ys : List KVEvent) :
    c.processKVStoreWatchEvents (xs ++ ys)
      = c.processKVStoreWatchEvents xs ++ c.processKVStoreWatchEvents ys := by
  induction xs with
  | nil => rfl
  | cons e t ih =>
    by_cases hb :
      (e.EventType == KVEventType.CONNECTIONDOWN || e.EventType == KVEventType.UNKNOWN) = true
    · simp [ComponentConfig.processKVStoreWatchEvents, hb, ih]
    · simp [ComponentConfig.processKVStoreWatchEvents, hb, ih]

/-- C7: an inbound raw watch event whose kind is not Put and not Delete
(ConnectionDown or Unknown) produces zero outbound events and does not
stop the processing of the surrounding events. -/
theorem invalid_watch_events_dropped (c : ComponentConfig) (e : KVEvent)
    (pre post : List KVEvent)
    (h : e.EventType = KVEventType.CONNECTIONDOWN ∨ e.EventType = KVEventType.UNKNOWN) :
    c.processKVStoreWatchEvents (pre ++ e :: post)
      = c.processKVStoreWatchEvents pre ++ c.processKVStoreWatchEvents post := by
  rw [processKVStoreWatchEvents_append]
  have he : c.processKVStoreWatchEvents (e :: post) = c.processKVStoreWatchEvents post := by
    rcases h with h | h <;> simp [ComponentConfig.processKVStoreWatchEvents, h]
  rw [he]

/-- C7 witness: a synthetic ConnectionDown event between a Put and a
Delete is dropped and the watch continues. -/
theorem invalid_watch_events_dropped_witness :
    ((⟨KVEventType.CONNECTIONDOWN, "c", ""⟩ : KVEvent).EventType = KVEventType.CONNECTIONDOWN
      ∨ (⟨KVEventType.CONNECTIONDOWN, "c", ""⟩ : KVEvent).EventType = KVEventType.UNKNOWN)
    ∧ rwCoreLogHandle.processKVStoreWatchEvents
        ([⟨KVEventType.PUT, "a", "1"⟩] ++ (⟨KVEventType.CONNECTIONDOWN, "c", ""⟩ : KVEvent) ::
          [⟨KVEventType.DELETE, "a", ""⟩])
        = rwCoreLogHandle.processKVStoreWatchEvents [⟨KVEventType.PUT, "a", "1"⟩]
          ++ rwCoreLogHandle.processKVStoreWatchEvents [⟨KVEventType.DELETE, "a", ""⟩] :=
  ⟨Or.inl rfl,
    invalid_watch_events_dropped rwCoreLogHandle ⟨KVEventType.CONNECTIONDOWN, "c", ""⟩
      [⟨KVEventType.PUT, "a", "1"⟩] [⟨KVEventType.DELETE, "a", ""⟩] (Or.inl rfl)⟩

/-- C8: the translation emits exactly one outbound event per valid (Put or
Delete) inbound event, with the outbound change type cast from the inbound
event kind, and the outbound sequence is the order-preserving image of the
valid inbound subsequence (strict FIFO, no reordering, no batching, no
coalescing). -/
theorem watch_translation_fifo (c : ComponentConfig) (events : List KVEvent) :
    c.processKVStoreWatchEvents events
      = (events.filter (fun e =>
            e.EventType == KVEventType.PUT || e.EventType == KVEventType.DELETE)).map
          (fun e =>
            { ChangeType := ChangeEventType.ofKVEventType e.EventType,
              ConfigAttribute := goTrimPrefix e.Key c.watchPathPrefix })
    ∧ (c.processKVStoreWatchEvents events).length
        = (events.filter (fun e =>
            e.EventType == KVEventType.PUT || e.EventType == KVEventType.DELETE)).length := by
  have hmain : c.processKVStoreWatchEvents events
      = (events.filter (fun e =>
            e.EventType == KVEventType.PUT || e.EventType == KVEventType.DELETE)).map
          (fun e =>
            { ChangeType := ChangeEventType.ofKVEventType e.EventType,
              ConfigAttribute := goTrimPrefix e.Key c.watchPathPrefix }) := by
    induction events with
    | nil => rfl
    | cons e t ih =>
      obtain ⟨et, k, v⟩ := e
      cases et <;>
        simp [ComponentConfig.processKVStoreWatchEvents, List.filter_cons, ih]
  exact ⟨hmain, by rw [hmain, List.length_map]⟩

/-- C9: the `#` escape rule round-trips on the scenario of the spec: the
CLI argument `rw-core#pkgA/pkgB` is parsed into component `rw-core` with
package part `pkgA/pkgB` encoded as `pkgA#pkgB` (every `/` replaced by
`#`), saving stores it under the key ending `/rw-core/loglevel/pkgA#pkgB`,
reading back recovers the stored attribute name `pkgA#pkgB`, and the
listing decode turns every `#` back into `/`, reporting `pkgA/pkgB`. -/
theorem escape_roundtrip_scenario :
    (processCommandArgs "rw-core#pkgA/pkgB").ComponentName = "rw-core"
    ∧ (processCommandArgs "rw-core#pkgA/pkgB").PackageName = "pkgA#pkgB"
    ∧ ComponentConfig.Save rwCoreLogHandle (processCommandArgs "rw-core#pkgA/pkgB").PackageName
        "DEBUG" []
        = [("/service/voltha/config/rw-core/loglevel/pkgA#pkgB", "DEBUG")]
    ∧ mapGet (rwCoreLogHandle.RetrieveAll
        (ComponentConfig.Save rwCoreLogHandle "pkgA#pkgB" "DEBUG" [])) "pkgA#pkgB"
        = some "DEBUG"
    ∧ displayPackageName "pkgA#pkgB" = "pkgA/pkgB" :=
  ⟨by decide, by decide, by decide, by decide, by decide⟩

end Voltha
